import Mathlib

/-!
Shallow embedding of the StarRocks loader of `bq-exporter`
(`service/starrocks.go`, old and new revisions) together with proofs about
its batching, schema reconciliation and transaction behaviour.

Conventions of the embedding:
* `bigquery.Value` is Go's `any`; it is modelled by the inductive `Value`,
  where `Value.vtime` abstracts a `time.Time` instant and `Value.vother`
  stands for every runtime shape the claims do not inspect.
* Statements executed against the StarRocks connection are recorded as
  structured `Stmt` values, one constructor per `fmt.Sprintf` template of the
  source; the surrounding SQL text (backtick quoting of identifiers, the
  literal `CREATE TABLE IF NOT EXISTS`, `ENGINE=OLAP`, `PROPERTIES` clause,
  placeholder groups of the insert) is carried implicitly by the
  constructor, and the variable parts are the constructor arguments.
* The destination database is external state: whether the table exists and
  which columns it has (`tableExists`, `getExistingColumns`) are inputs,
  collected in `TableEnv`.  DDL executions are modelled as succeeding; DML
  executions inside the insert transaction and the final commit are driven
  by an oracle (`execRes`, `commitRes`) so that failures can be injected.
* The BigQuery row iterator is modelled by the list of rows it will yield
  in order, plus an optional read error delivered after the last row
  (`iterator.Done` when the option is empty).
-/

namespace BQExporter

/-- Equality of `Except` results is decidable when it is on both sides. -/
instance instDecEqExcept {ε α : Type} [DecidableEq ε] [DecidableEq α] :
    DecidableEq (Except ε α) := fun a b =>
  match a, b with
  | Except.error e, Except.error f =>
    if h : e = f then Decidable.isTrue (by rw [h])
    else Decidable.isFalse (by simp [h])
  | Except.ok x, Except.ok y =>
    if h : x = y then Decidable.isTrue (by rw [h])
    else Decidable.isFalse (by simp [h])
  | Except.error _, Except.ok _ => Decidable.isFalse (by simp)
  | Except.ok _, Except.error _ => Decidable.isFalse (by simp)

/-- Logical field types of `bigquery.FieldSchema.Type` that the source
distinguishes; every type the Go switch does not name falls to `other`. -/
inductive FieldType
  | string
  | bytes
  | integer
  | float
  | boolean
  | timestamp
  | datetime
  | date
  | time
  | numeric
  | geography
  | json
  | record
  | other
  deriving Repr, DecidableEq

/-- One field of a BigQuery schema: `bigquery.FieldSchema` restricted to the
members the source reads (`Name`, `Type`, `Repeated`). -/
structure FieldSchema where
  name : String
  type : FieldType
  repeated : Bool
  deriving Repr, DecidableEq

/-- `bigquery.Schema` is an ordered list of fields. -/
abbrev Schema := List FieldSchema

/-- A dynamically typed `bigquery.Value`.  `vtime` abstracts a `time.Time`
instant by an integer stamp; `vother` covers every remaining runtime shape
(floats, bytes, nested data, ...) that the code never inspects. -/
inductive Value
  | null
  | vtime (t : Int)
  | vint (n : Int)
  | vstr (s : String)
  | vbool (b : Bool)
  | vother (tag : String)
  deriving Repr, DecidableEq

/-- A row is a positional list of values. -/
abbrev Row := List Value

/-- `mapSRType`: maps BigQuery field types to StarRocks column types,
clause for clause the Go switch. -/
def mapSRType (f : FieldSchema) : String :=
  match f.type with
  | FieldType.string => "VARCHAR(1024)"
  | FieldType.bytes => "VARBINARY(1024)"
  | FieldType.integer => "BIGINT"
  | FieldType.float => "DOUBLE"
  | FieldType.boolean => "BOOLEAN"
  | FieldType.timestamp => "DATETIME"
  | FieldType.datetime => "DATETIME"
  | FieldType.date => "DATE"
  | FieldType.time => "VARCHAR(64)"
  | FieldType.numeric => "DECIMAL(38,9)"
  | FieldType.geography => "VARCHAR(2048)"
  | FieldType.json => "JSON"
  | _ => "VARCHAR(1024)"

/-- The per-value body of `convertValues`: for a `Timestamp` column the Go
type switch keeps a `time.Time` and turns anything else into `nil`; every
other column type passes the value through unchanged. -/
def convertValue (f : FieldSchema) (v : Value) : Value :=
  match f.type with
  | FieldType.timestamp =>
    match v with
    | Value.vtime t => Value.vtime t
    | _ => Value.null
  | _ => v

/-- `convertValues`: converts the row values positionally against the schema.
The Go loop indexes `schema[i]` for `i` ranging over the values (a row longer
than the schema would panic there); the model recurses over both lists in
step and is only applied to rows no longer than the schema. -/
def convertValues : List Value → Schema → List Value
  | [], _ => []
  | v :: vs, [] => v :: convertValues vs []
  | v :: vs, f :: fs => convertValue f v :: convertValues vs fs

/-- One statement executed against the StarRocks connection.  Each
constructor records the variable parts of the corresponding `fmt.Sprintf`
template of the source:
* `createDatabase db` is `CREATE DATABASE IF NOT EXISTS <db>`;
* `providedDDL s` is the caller-supplied DDL string executed verbatim;
* `createTable full cols dupKey buckets repl` is the synthesized
  `CREATE TABLE IF NOT EXISTS <full> (<name type>, ...) ENGINE=OLAP
  DUPLICATE KEY (<dupKey>) DISTRIBUTED BY HASH(<dupKey>) BUCKETS <buckets>
  PROPERTIES ("replication_num" = "<repl>")`;
* `addColumn full col ty` is `ALTER TABLE <full> ADD COLUMN <col> <ty>`;
* `insert table cols numRows args` is the parameterized
  `INSERT INTO <table> (<cols>) VALUES (?, ...), ...` with `numRows`
  placeholder groups and the flattened bind arguments `args`.
Identifier backtick-quoting done by the Go templates is left implicit: the
constructors carry the raw names. -/
inductive Stmt
  | createDatabase (db : String)
  | providedDDL (ddl : String)
  | createTable (fullName : String) (cols : List (String × String))
      (dupKey : String) (buckets : Nat) (replicationNum : Nat)
  | addColumn (fullName : String) (col : String) (colType : String)
  | insert (table : String) (cols : List String) (numRows : Nat)
      (args : List Value)
  deriving Repr, DecidableEq

/-- One existing destination column, `srColumn` of the source. -/
structure SRColumn where
  name : String
  type : String
  deriving Repr, DecidableEq

/-- External destination state consulted by `ensureTable`: the answer of
`tableExists` and the rows `getExistingColumns` returns. -/
structure TableEnv where
  tableExists : Bool
  existingCols : List SRColumn
  deriving Repr, DecidableEq

/-- Splitting at the first occurrence of a dot, the combination of
`strings.Contains(table, ".")` and `strings.SplitN(table, ".", 2)` used by
`parseDBTable`: `none` when there is no dot, otherwise the characters
before and after the first dot. -/
def splitFirstDot : List Char → Option (List Char × List Char)
  | [] => none
  | c :: cs =>
    if c = '.' then some ([], cs)
    else
      match splitFirstDot cs with
      | none => none
      | some (d, t) => some (c :: d, t)

/-- Go `strings.TrimSpace` over the characters of a string: strips leading
and trailing whitespace. -/
def trimSpace (s : String) : String :=
  String.mk
    (((s.toList.dropWhile Char.isWhitespace).reverse.dropWhile
        Char.isWhitespace).reverse)

/-- `parseDBTable`: splits `table` at the first dot into database and table;
an empty database part, or no dot at all, falls back to the configured
`dbname`. -/
def parseDBTable (dbname table : String) : String × String :=
  match splitFirstDot table.toList with
  | none => (dbname, table)
  | some (d, t) =>
    let db := if d = [] then dbname else String.mk d
    (db, String.mk t)

/-- `qualify`: `db.tbl`. -/
def qualify (db tbl : String) : String := db ++ "." ++ tbl

/-- `ensureDatabase`: rejects a blank database name, otherwise executes the
idempotent create statement (modelled as succeeding). -/
def ensureDatabase (db : String) : List Stmt × Except String Unit :=
  if trimSpace db = "" then ([], Except.error ("database is empty"))
  else ([Stmt.createDatabase db], Except.ok ())

/-- The error text of the source for a repeated or record field (Go
`fmt.Errorf("unsupported complex type for column %q", f.Name)`). -/
def unsupportedMsg (name : String) : String :=
  "unsupported complex type for column \"" ++ name ++ "\""

/-- Result of reconciliation steps: the statements executed, how many times
`mapSRType` was invoked, and the outcome. -/
structure EnsureResult where
  stmts : List Stmt
  mapperCalls : Nat
  result : Except String Unit
  deriving Repr, DecidableEq

/-- The column-building loop of `ensureTable`'s create path: walks the
schema in order, failing on the first repeated or record field, and
otherwise collects `(name, mapSRType)` clauses; the second component counts
the `mapSRType` invocations made before returning. -/
def buildCreateCols : Schema → Except String (List (String × String)) × Nat
  | [] => (Except.ok [], 0)
  | f :: rest =>
    if f.repeated = true ∨ f.type = FieldType.record then
      (Except.error (unsupportedMsg f.name), 0)
    else
      match buildCreateCols rest with
      | (Except.ok cols, n) => (Except.ok ((f.name, mapSRType f) :: cols), n + 1)
      | (Except.error e, n) => (Except.error e, n + 1)

/-- `evolveSchema`'s loop over the schema: for each field, fail on a
repeated or record type; skip a field whose name is a key of the map built
from the existing columns (exact string equality — only the column *type*
is upper-cased when that map is filled); otherwise execute one
`ADD COLUMN` statement with the mapped type. -/
def evolveSchema (fullName : String) (existingNames : List String) :
    Schema → EnsureResult
  | [] => ⟨[], 0, Except.ok ()⟩
  | f :: rest =>
    if f.repeated = true ∨ f.type = FieldType.record then
      ⟨[], 0, Except.error (unsupportedMsg f.name)⟩
    else if existingNames.contains f.name then
      evolveSchema fullName existingNames rest
    else
      let r := evolveSchema fullName existingNames rest
      ⟨Stmt.addColumn fullName f.name (mapSRType f) :: r.stmts,
        r.mapperCalls + 1, r.result⟩

/-- `ensureTable` (new revision): reject an empty table identifier, resolve
database and table, ensure the database, then either execute a non-blank
caller-supplied DDL verbatim and return, or — when the table does not exist
— synthesize the duplicate-key CREATE statement (first field as key, 8
buckets, one replica), or — when it exists — evolve it additively.
DDL executions and the existence/column queries are modelled as
succeeding; the statement list records what was executed. -/
def ensureTable (dbname : String) (env : TableEnv) (schema : Schema)
    (table createDDL : String) : EnsureResult :=
  if table = "" then ⟨[], 0, Except.error ("table name is empty")⟩
  else
    let p := parseDBTable dbname table
    match ensureDatabase p.1 with
    | (st0, Except.error e) => ⟨st0, 0, Except.error e⟩
    | (st0, Except.ok _) =>
      if trimSpace createDDL ≠ "" then
        ⟨st0 ++ [Stmt.providedDDL createDDL], 0, Except.ok ()⟩
      else if env.tableExists = false then
        match schema with
        | [] => ⟨st0, 0, Except.error ("empty BigQuery schema")⟩
        | f0 :: _ =>
          match buildCreateCols schema with
          | (Except.error e, n) => ⟨st0, n, Except.error e⟩
          | (Except.ok cols, n) =>
            ⟨st0 ++ [Stmt.createTable (qualify p.1 p.2) cols f0.name 8 1],
              n, Except.ok ()⟩
      else
        let r := evolveSchema (qualify p.1 p.2)
          (env.existingCols.map SRColumn.name) schema
        ⟨st0 ++ r.stmts, r.mapperCalls, r.result⟩

/-- The column list of the insert statements: one entry per schema field, in
schema order (the Go code additionally wraps each name in backticks). -/
def insertCols (schema : Schema) : List String := schema.map FieldSchema.name

/-- `buildBatchInsert`: one parameterized multi-row insert covering the
whole batch; the bind arguments are the per-row `convertValues` outputs,
concatenated in batch order. -/
def buildBatchInsert (table : String) (cols : List String) (schema : Schema)
    (batch : List Row) : Stmt :=
  Stmt.insert table cols batch.length
    ((batch.map (fun r => convertValues r schema)).flatten)

/-- One call made on the open transaction. -/
inductive TxOp
  | beginTx
  | exec (s : Stmt)
  | commit
  | rollback
  deriving Repr, DecidableEq

/-- Outcome of `insertRows`: the transaction calls in order, and either the
row total or the error returned. -/
structure TxResult where
  ops : List TxOp
  result : Except String Nat
  deriving Repr, DecidableEq

/-- The row-pulling loop shared by both revisions of `insertRows`, new
revision.  Failures are injected through `execRes` (result of the k-th
batch execute), `commitRes` (result of the final commit) and `readErr`
(error the iterator returns after its last row; `none` is `iterator.Done`).
A failing path returns at once with the calls made so far: the Go function
re-declares `err` in every failing branch, so the deferred
`tx.Rollback()` — which tests the outer `err`, never reassigned after a
successful `BeginTx` — does not fire, and no rollback call is recorded. -/
def insertLoop (schema : Schema) (table : String) (cols : List String)
    (batchSize : Nat) (execRes : Nat → Option String)
    (commitRes : Option String) (readErr : Option String) :
    List Row → List Row → Nat → Nat → List TxOp → TxResult
  | [], batch, total, _, ops =>
    match readErr with
    | some e => ⟨ops, Except.error e⟩
    | none =>
      if batch.isEmpty then
        match commitRes with
        | some e => ⟨ops ++ [TxOp.commit], Except.error e⟩
        | none => ⟨ops ++ [TxOp.commit], Except.ok total⟩
      else
        let st := buildBatchInsert table cols schema batch
        match execRes 0 with
        | some e => ⟨ops ++ [TxOp.exec st], Except.error e⟩
        | none =>
          match commitRes with
          | some e => ⟨ops ++ [TxOp.exec st, TxOp.commit], Except.error e⟩
          | none =>
            ⟨ops ++ [TxOp.exec st, TxOp.commit],
              Except.ok (total + batch.length)⟩
  | r :: rest, batch, total, execCount, ops =>
    let batch2 := batch ++ [r]
    if batchSize ≤ batch2.length then
      let st := buildBatchInsert table cols schema batch2
      match execRes execCount with
      | some e => ⟨ops ++ [TxOp.exec st], Except.error e⟩
      | none =>
        insertLoop schema table cols batchSize execRes commitRes readErr
          rest [] (total + batch2.length) (execCount + 1)
          (ops ++ [TxOp.exec st])
    else
      insertLoop schema table cols batchSize execRes commitRes readErr
        rest batch2 total execCount ops

/-- `insertRows` (new revision): opens one transaction, seeds the batch with
the prefetched row when one was handed over and is non-empty, then drains
the stream in batches of `batchSize` (the Go default is 1000, overridden by
a positive `STARROCKS_BATCH_SIZE`), flushes the remainder and commits.
Opening the transaction is modelled as succeeding. -/
def insertRows (schema : Schema) (table : String) (batchSize : Nat)
    (execRes : Nat → Option String) (commitRes : Option String)
    (rows : List Row) (readErr : Option String)
    (prefetched : Row) (havePrefetch : Bool) : TxResult :=
  let cols := insertCols schema
  let batch0 :=
    if havePrefetch = true ∧ 0 < prefetched.length then [prefetched] else []
  insertLoop schema table cols batchSize execRes commitRes readErr
    rows batch0 0 0 [TxOp.beginTx]

/-- The row-pulling loop of the *old* revision of `insertRows`
(the revision without the peek protocol); its body is the same, clause for
clause, as `insertLoop`. -/
def insertLoopOld (schema : Schema) (table : String) (cols : List String)
    (batchSize : Nat) (execRes : Nat → Option String)
    (commitRes : Option String) (readErr : Option String) :
    List Row → List Row → Nat → Nat → List TxOp → TxResult
  | [], batch, total, _, ops =>
    match readErr with
    | some e => ⟨ops, Except.error e⟩
    | none =>
      if batch.isEmpty then
        match commitRes with
        | some e => ⟨ops ++ [TxOp.commit], Except.error e⟩
        | none => ⟨ops ++ [TxOp.commit], Except.ok total⟩
      else
        let st := buildBatchInsert table cols schema batch
        match execRes 0 with
        | some e => ⟨ops ++ [TxOp.exec st], Except.error e⟩
        | none =>
          match commitRes with
          | some e => ⟨ops ++ [TxOp.exec st, TxOp.commit], Except.error e⟩
          | none =>
            ⟨ops ++ [TxOp.exec st, TxOp.commit],
              Except.ok (total + batch.length)⟩
  | r :: rest, batch, total, execCount, ops =>
    let batch2 := batch ++ [r]
    if batchSize ≤ batch2.length then
      let st := buildBatchInsert table cols schema batch2
      match execRes execCount with
      | some e => ⟨ops ++ [TxOp.exec st], Except.error e⟩
      | none =>
        insertLoopOld schema table cols batchSize execRes commitRes readErr
          rest [] (total + batch2.length) (execCount + 1)
          (ops ++ [TxOp.exec st])
    else
      insertLoopOld schema table cols batchSize execRes commitRes readErr
        rest batch2 total execCount ops

/-- `insertRows` of the old revision: identical drain-and-commit loop, with
no prefetched-row seeding. -/
def insertRowsOld (schema : Schema) (table : String) (batchSize : Nat)
    (execRes : Nat → Option String) (commitRes : Option String)
    (rows : List Row) (readErr : Option String) : TxResult :=
  let cols := insertCols schema
  insertLoopOld schema table cols batchSize execRes commitRes readErr
    rows [] 0 0 [TxOp.beginTx]

/-- The result of a BigQuery query as the loader observes it:
`initialSchema` is `it.Schema` right after `Read`; when it is empty, the
first `it.Next` call materializes `materializedSchema`; `rows` are yielded
in order; after the last row `it.Next` returns `readErr` when set, and
`iterator.Done` otherwise. -/
structure BQResult where
  initialSchema : Schema
  materializedSchema : Schema
  rows : List Row
  readErr : Option String
  deriving Repr, DecidableEq

/-- Outcome of a load call: the DDL statements executed outside the
transaction, the transaction calls, and the row count or error. -/
structure LoadOutcome where
  ddl : List Stmt
  tx : List TxOp
  result : Except String Nat
  deriving Repr, DecidableEq

/-- `LoadFromBigQuery` (new revision): runs the query (submission modelled
as succeeding; its result is `bq`), peeks one row when the schema is empty
to force materialization — keeping that row as the prefetched row — fails
when the schema is still empty, ensures the table, and inserts the
remaining rows with the prefetched row handed over. -/
def LoadFromBigQuery (dbname : String) (env : TableEnv) (bq : BQResult)
    (table createDDL : String) (batchSize : Nat)
    (execRes : Nat → Option String) (commitRes : Option String) :
    LoadOutcome :=
  let peek : Except String (Schema × Row × Bool × List Row) :=
    if bq.initialSchema ≠ [] then
      Except.ok (bq.initialSchema, [], false, bq.rows)
    else
      match bq.rows with
      | r :: rest => Except.ok (bq.materializedSchema, r, true, rest)
      | [] =>
        match bq.readErr with
        | some e => Except.error ("failed to fetch BigQuery rows: " ++ e)
        | none => Except.ok (bq.materializedSchema, [], false, [])
  match peek with
  | Except.error e => ⟨[], [], Except.error e⟩
  | Except.ok (schema, pre, havePre, remaining) =>
    if schema = [] then ⟨[], [], Except.error ("empty BigQuery schema")⟩
    else
      let er := ensureTable dbname env schema table createDDL
      match er.result with
      | Except.error e =>
        ⟨er.stmts, [], Except.error ("failed to ensure StarRocks table: " ++ e)⟩
      | Except.ok _ =>
        let txr := insertRows schema table batchSize execRes commitRes
          remaining bq.readErr pre havePre
        match txr.result with
        | Except.error e =>
          ⟨er.stmts, txr.ops,
            Except.error ("failed to insert rows into StarRocks: " ++ e)⟩
        | Except.ok n => ⟨er.stmts, txr.ops, Except.ok n⟩

/-- Specification-side description of the drain loop's batching, used to
state the theorems: the batches flushed when the loop starts with the
partial batch `b` and the stream still holds `l`, a flush happening as soon
as appending a row makes the batch length reach `B`, with a final flush of
the non-empty remainder. -/
def chunkAcc (B : Nat) : List Row → List Row → List (List Row)
  | b, [] => if b.isEmpty then [] else [b]
  | b, r :: rest =>
    if B ≤ (b ++ [r]).length then (b ++ [r]) :: chunkAcc B [] rest
    else chunkAcc B (b ++ [r]) rest

/-! ### Helper lemmas -/

/-- Concatenating the flushed batches recovers the seed batch followed by
the streamed rows, in order. -/
theorem chunkAcc_flatten (B : Nat) :
    ∀ (l b : List Row), (chunkAcc B b l).flatten = b ++ l := by
  intro l
  induction l with
  | nil => intro b; cases b <;> simp [chunkAcc]
  | cons r rest ih =>
    intro b
    simp only [chunkAcc]
    split
    · simp [ih]
    · simp [ih]

/-- Every flushed batch is non-empty, and the first one starts with the head
of the seed batch when that seed is non-empty. -/
theorem chunkAcc_head (B : Nat) :
    ∀ (l b : List Row), b ≠ [] →
      ∃ c0 cs, chunkAcc B b l = c0 :: cs ∧ c0.head? = b.head? := by
  intro l
  induction l with
  | nil =>
    intro b hb
    refine ⟨b, [], ?_, rfl⟩
    simp [chunkAcc, List.isEmpty_iff, hb]
  | cons r rest ih =>
    intro b hb
    simp only [chunkAcc]
    split
    · refine ⟨b ++ [r], _, rfl, ?_⟩
      cases b with
      | nil => exact absurd rfl hb
      | cons x xs => simp
    · obtain ⟨c0, cs, heq, hh⟩ := ih (b ++ [r]) (by simp)
      refine ⟨c0, cs, heq, ?_⟩
      rw [hh]
      cases b with
      | nil => exact absurd rfl hb
      | cons x xs => simp

/-- Appending one row adds one to a batch's length. -/
theorem length_append_one (b : List Row) (r : Row) :
    (b ++ [r]).length = b.length + 1 := by simp

/-- Number of flushed batches: the ceiling of the row count over `B`. -/
theorem chunkAcc_length (B : Nat) :
    ∀ (l b : List Row), b.length < B →
      (chunkAcc B b l).length = (b.length + l.length + B - 1) / B := by
  intro l
  induction l with
  | nil =>
    intro b hb
    cases b with
    | nil =>
      have e1 : chunkAcc B [] [] = [] := by simp [chunkAcc]
      have h1 : ([] : List Row).length + ([] : List Row).length + B - 1 < B := by
        simp only [List.length_nil]; omega
      rw [e1, Nat.div_eq_of_lt h1]
      rfl
    | cons x xs =>
      have e1 : chunkAcc B (x :: xs) [] = [x :: xs] := by simp [chunkAcc]
      have h2 : (x :: xs).length + ([] : List Row).length + B - 1 =
          ((x :: xs).length - 1) + B := by
        simp only [List.length_nil, List.length_cons]; omega
      have h3 : (x :: xs).length - 1 < B := by
        simp only [List.length_cons] at hb ⊢; omega
      rw [e1, h2, Nat.add_div_right _ (by omega : 0 < B), Nat.div_eq_of_lt h3]
      rfl
  | cons r rest ih =>
    intro b hb
    have hbr := length_append_one b r
    simp only [chunkAcc]
    by_cases hfl : B ≤ (b ++ [r]).length
    · rw [if_pos hfl]
      have hflush : b.length + 1 = B := by omega
      have h3 : b.length + (r :: rest).length + B - 1 =
          (([] : List Row).length + rest.length + B - 1) + B := by
        simp only [List.length_cons, List.length_nil]; omega
      rw [h3, Nat.add_div_right _ (by omega : 0 < B), List.length_cons,
        ih [] (by simp only [List.length_nil]; omega)]
    · rw [if_neg hfl]
      have hlt : (b ++ [r]).length < B := by omega
      rw [ih (b ++ [r]) hlt]
      congr 1
      simp only [List.length_append, List.length_cons, List.length_nil]
      omega

/-- Every flushed batch except possibly the last covers exactly `B` rows. -/
theorem chunkAcc_dropLast (B : Nat) :
    ∀ (l b : List Row), b.length < B →
      ∀ c ∈ (chunkAcc B b l).dropLast, c.length = B := by
  intro l
  induction l with
  | nil =>
    intro b _ c hc
    cases b <;> simp [chunkAcc] at hc
  | cons r rest ih =>
    intro b hb c hc
    have hbr := length_append_one b r
    simp only [chunkAcc] at hc
    by_cases hfl : B ≤ (b ++ [r]).length
    · rw [if_pos hfl] at hc
      revert hc
      cases ht : chunkAcc B [] rest with
      | nil =>
        intro hc
        simp at hc
      | cons c1 cs =>
        intro hc
        rw [List.dropLast_cons₂, List.mem_cons] at hc
        rcases hc with hc | hc
        · subst hc
          omega
        · have h6 := ih [] (by simp only [List.length_nil]; omega) c
          rw [ht] at h6
          exact h6 hc
    · rw [if_neg hfl] at hc
      exact ih (b ++ [r]) (by omega) c hc

/-- The last flushed batch covers the remainder: `N mod B` rows when that is
non-zero, a full `B` otherwise. -/
theorem chunkAcc_getLast (B : Nat) :
    ∀ (l b : List Row), b.length < B →
      ∀ c, (chunkAcc B b l).getLast? = some c →
        c.length = if (b.length + l.length) % B = 0 then B
          else (b.length + l.length) % B := by
  intro l
  induction l with
  | nil =>
    intro b hb c hc
    cases b with
    | nil => simp [chunkAcc] at hc
    | cons x xs =>
      have e1 : chunkAcc B (x :: xs) [] = [x :: xs] := by simp [chunkAcc]
      rw [e1] at hc
      simp only [List.getLast?_singleton, Option.some_inj] at hc
      subst hc
      have hmod : ((x :: xs).length + ([] : List Row).length) % B =
          (x :: xs).length := by
        simp only [List.length_nil, Nat.add_zero]
        exact Nat.mod_eq_of_lt hb
      rw [hmod]
      have hne : (x :: xs).length ≠ 0 := by simp
      rw [if_neg hne]
  | cons r rest ih =>
    intro b hb c hc
    have hbr := length_append_one b r
    simp only [chunkAcc] at hc
    by_cases hfl : B ≤ (b ++ [r]).length
    · rw [if_pos hfl] at hc
      have hflush : b.length + 1 = B := by omega
      revert hc
      cases ht : chunkAcc B [] rest with
      | nil =>
        intro hc
        simp only [List.getLast?_singleton, Option.some_inj] at hc
        subst hc
        have hrest : rest = [] := by
          have h7 := chunkAcc_flatten B rest []
          rw [ht] at h7
          simpa using h7.symm
        subst hrest
        have hN : (b.length + ([r] : List Row).length) % B = 0 := by
          simp only [List.length_cons, List.length_nil]
          have h8 : b.length + (0 + 1) = B := by omega
          rw [h8]
          exact Nat.mod_self B
        simp only [List.length_cons, List.length_nil] at hN ⊢
        rw [if_pos hN]
        omega
      | cons c1 cs =>
        intro hc
        rw [List.getLast?_cons_cons] at hc
        have h9 := ih [] (by simp only [List.length_nil]; omega) c
        rw [ht] at h9
        have hres := h9 hc
        have hmod : (b.length + (r :: rest).length) % B =
            (([] : List Row).length + rest.length) % B := by
          simp only [List.length_cons, List.length_nil]
          have h4 : b.length + (rest.length + 1) = B + (0 + rest.length) := by omega
          rw [h4, Nat.add_mod_left]
        rw [hmod]
        exact hres
    · rw [if_neg hfl] at hc
      have hres := ih (b ++ [r]) (by omega) c hc
      have hmod : ((b ++ [r]).length + rest.length) % B =
          (b.length + (r :: rest).length) % B := by
        simp only [List.length_append, List.length_cons, List.length_nil]
        congr 1
        omega
      rw [hmod] at hres
      exact hres

/-- Characterization of the drain loop when every execute and the commit
succeed and the stream ends in `iterator.Done`: the transaction trace is
one execute per flushed batch, in order, followed by the commit, and the
returned total counts the seed batch and every streamed row. -/
theorem insertLoop_ok (schema : Schema) (table : String) (cols : List String)
    (B : Nat) :
    ∀ (l b : List Row) (total k : Nat) (ops : List TxOp),
      insertLoop schema table cols B (fun _ => none) none none l b total k ops =
        ⟨ops ++ ((chunkAcc B b l).map
            (fun c => TxOp.exec (buildBatchInsert table cols schema c)) ++
          [TxOp.commit]),
          Except.ok (total + b.length + l.length)⟩ := by
  intro l
  induction l with
  | nil =>
    intro b total k ops
    cases b with
    | nil => simp [insertLoop, chunkAcc]
    | cons x xs => simp [insertLoop, chunkAcc]
  | cons r rest ih =>
    intro b total k ops
    have hbr := length_append_one b r
    by_cases hfl : B ≤ (b ++ [r]).length
    · simp only [insertLoop, if_pos hfl]
      rw [ih]
      simp only [chunkAcc, if_pos hfl, List.map_cons, TxResult.mk.injEq]
      constructor
      · simp [List.append_assoc]
      · congr 1
        simp only [List.length_nil, List.length_cons] at *
        omega
    · simp only [insertLoop, if_neg hfl]
      rw [ih]
      simp only [chunkAcc, if_neg hfl, TxResult.mk.injEq]
      constructor
      · trivial
      · congr 1
        simp only [List.length_cons] at *
        omega

/-- The drain loops of the two revisions are the same function. -/
theorem insertLoop_eq_old (schema : Schema) (table : String)
    (cols : List String) (B : Nat) (execRes : Nat → Option String)
    (commitRes : Option String) (readErr : Option String) :
    ∀ (l b : List Row) (total k : Nat) (ops : List TxOp),
      insertLoop schema table cols B execRes commitRes readErr l b total k ops =
        insertLoopOld schema table cols B execRes commitRes readErr
          l b total k ops := by
  intro l
  induction l with
  | nil =>
    intro b total k ops
    simp only [insertLoop, insertLoopOld]
  | cons r rest ih =>
    intro b total k ops
    by_cases hfl : B ≤ (b ++ [r]).length
    · simp only [insertLoop, insertLoopOld, if_pos hfl]
      cases hek : execRes k with
      | some e => rfl
      | none => exact ih [] (total + (b ++ [r]).length) (k + 1) _
    · simp only [insertLoop, insertLoopOld, if_neg hfl]
      exact ih (b ++ [r]) total k ops

/-- The create-path column loop on a schema free of repeated and record
fields: one `(name, mapped type)` clause per field, one `mapSRType`
invocation per field. -/
theorem buildCreateCols_ok (schema : Schema)
    (hok : ∀ f ∈ schema, f.repeated = false ∧ f.type ≠ FieldType.record) :
    buildCreateCols schema =
      (Except.ok (schema.map (fun f => (f.name, mapSRType f))),
        schema.length) := by
  induction schema with
  | nil => rfl
  | cons f fs ih =>
    obtain ⟨h1, h2⟩ := hok f (by simp)
    have hcond : ¬ (f.repeated = true ∨ f.type = FieldType.record) := by
      simp [h1, h2]
    simp only [buildCreateCols, if_neg hcond]
    rw [ih (fun g hg => hok g (by simp [hg]))]
    simp

/-- The create-path column loop fails at the first repeated or record
field, after one `mapSRType` invocation per preceding field. -/
theorem buildCreateCols_err (pre : Schema) (f : FieldSchema) (post : Schema)
    (hpre : ∀ g ∈ pre, g.repeated = false ∧ g.type ≠ FieldType.record)
    (hf : f.repeated = true ∨ f.type = FieldType.record) :
    buildCreateCols (pre ++ f :: post) =
      (Except.error (unsupportedMsg f.name), pre.length) := by
  induction pre with
  | nil =>
    simp only [List.nil_append, buildCreateCols, if_pos hf, List.length_nil]
  | cons g gs ih =>
    obtain ⟨h1, h2⟩ := hpre g (by simp)
    have hcond : ¬ (g.repeated = true ∨ g.type = FieldType.record) := by
      simp [h1, h2]
    simp only [List.cons_append, buildCreateCols, if_neg hcond, List.append_eq]
    rw [ih (fun x hx => hpre x (by simp [hx]))]
    simp

/-- The evolution loop on a schema free of repeated and record fields
issues exactly one `ADD COLUMN` per field whose name is absent — by exact
string comparison — from the existing column names, and none for the
present ones. -/
theorem evolveSchema_ok (fullName : String) (names : List String)
    (schema : Schema)
    (hok : ∀ f ∈ schema, f.repeated = false ∧ f.type ≠ FieldType.record) :
    evolveSchema fullName names schema =
      ⟨(schema.filter (fun f => !(names.contains f.name))).map
          (fun f => Stmt.addColumn fullName f.name (mapSRType f)),
        (schema.filter (fun f => !(names.contains f.name))).length,
        Except.ok ()⟩ := by
  induction schema with
  | nil => rfl
  | cons f fs ih =>
    obtain ⟨h1, h2⟩ := hok f (by simp)
    have hcond : ¬ (f.repeated = true ∨ f.type = FieldType.record) := by
      simp [h1, h2]
    have ihr := ih (fun g hg => hok g (by simp [hg]))
    cases hmem : names.contains f.name with
    | true =>
      simp only [evolveSchema, if_neg hcond, hmem, if_true, ihr,
        List.filter_cons, Bool.not_true, if_false, Bool.false_eq_true]
    | false =>
      simp only [evolveSchema, if_neg hcond, hmem, ihr, List.filter_cons,
        Bool.not_false, if_true, Bool.false_eq_true, if_false,
        List.map_cons, List.length_cons]

/-- The evolution loop fails at the first repeated or record field, after
having issued the `ADD COLUMN` statements for the missing fields that
precede it in schema order. -/
theorem evolveSchema_err (fullName : String) (names : List String)
    (pre : Schema) (f : FieldSchema) (post : Schema)
    (hpre : ∀ g ∈ pre, g.repeated = false ∧ g.type ≠ FieldType.record)
    (hf : f.repeated = true ∨ f.type = FieldType.record) :
    evolveSchema fullName names (pre ++ f :: post) =
      ⟨(pre.filter (fun g => !(names.contains g.name))).map
          (fun g => Stmt.addColumn fullName g.name (mapSRType g)),
        (pre.filter (fun g => !(names.contains g.name))).length,
        Except.error (unsupportedMsg f.name)⟩ := by
  induction pre with
  | nil =>
    simp only [List.nil_append, evolveSchema, if_pos hf, List.filter_nil,
      List.map_nil, List.length_nil]
  | cons g gs ih =>
    obtain ⟨h1, h2⟩ := hpre g (by simp)
    have hcond : ¬ (g.repeated = true ∨ g.type = FieldType.record) := by
      simp [h1, h2]
    have ihr := ih (fun x hx => hpre x (by simp [hx]))
    cases hmem : names.contains g.name with
    | true =>
      simp only [List.cons_append, evolveSchema, if_neg hcond, hmem, if_true,
        List.append_eq, ihr, List.filter_cons, Bool.not_true, if_false,
        Bool.false_eq_true]
    | false =>
      simp only [List.cons_append, evolveSchema, if_neg hcond, hmem,
        List.append_eq, ihr, List.filter_cons, Bool.not_false, if_true,
        Bool.false_eq_true, if_false, List.map_cons, List.length_cons]

/-- Conversion preserves the number of values in a row. -/
theorem convertValues_length :
    ∀ (vs : List Value) (fs : Schema),
      (convertValues vs fs).length = vs.length := by
  intro vs
  induction vs with
  | nil => intro fs; cases fs <;> rfl
  | cons v vt ih =>
    intro fs
    cases fs with
    | nil => simp [convertValues, ih]
    | cons f ft => simp [convertValues, ih]

/-- Conversion acts positionally: the value at index `i` is converted
against the field at index `i`. -/
theorem convertValues_getElem :
    ∀ (vs : List Value) (fs : Schema) (i : Nat) (f : FieldSchema) (v : Value),
      fs[i]? = some f → vs[i]? = some v →
      (convertValues vs fs)[i]? = some (convertValue f v) := by
  intro vs
  induction vs with
  | nil =>
    intro fs i f v hf hv
    simp at hv
  | cons v0 vt ih =>
    intro fs i f v hf hv
    cases fs with
    | nil => simp at hf
    | cons f0 ft =>
      cases i with
      | zero =>
        simp only [List.getElem?_cons_zero, Option.some_inj] at hv hf
        subst hv
        subst hf
        simp [convertValues]
      | succ n =>
        simp only [List.getElem?_cons_succ] at hf hv
        simp only [convertValues, List.getElem?_cons_succ]
        exact ih ft n f v hf hv

/-- An empty-stream `insertRows` call (no prefetched row) makes no
execute call: it only opens the transaction and commits to a total of 0. -/
theorem insertRows_nil (schema : Schema) (table : String) (B : Nat)
    (execRes : Nat → Option String) (prefetched : Row) :
    insertRows schema table B execRes none [] none prefetched false =
      ⟨[TxOp.beginTx, TxOp.commit], Except.ok 0⟩ := by
  simp [insertRows, insertLoop]

/-! ### The claims -/

/-- Claim C1 (code bug): the spec says that any failure after the
transaction is opened rolls the transaction back before `insertRows`
returns.  The code intends this — a deferred `tx.Rollback()` guarded by
`err != nil` — but every failing path declares a fresh, shadowed `err`, so
the outer `err` the defer inspects is never set after a successful
`BeginTx` and the rollback never runs.  On the concrete failing input
(batch size 1, two rows, second insert failing) the call returns the
insert error with total 0, the first batch has been executed inside the
transaction, and neither a rollback nor a commit is ever issued. -/
theorem insertRows_failure_no_rollback :
    insertRows [⟨("a"), FieldType.integer, false⟩] ("t") 1
        (fun k => if k = 0 then none else some ("insert failed")) none
        [[Value.vint 1], [Value.vint 2]] none [] false =
      ⟨[TxOp.beginTx,
        TxOp.exec (Stmt.insert ("t") [("a")] 1 [Value.vint 1]),
        TxOp.exec (Stmt.insert ("t") [("a")] 1 [Value.vint 2])],
        Except.error ("insert failed")⟩ ∧
    TxOp.rollback ∉
      (insertRows [⟨("a"), FieldType.integer, false⟩] ("t") 1
        (fun k => if k = 0 then none else some ("insert failed")) none
        [[Value.vint 1], [Value.vint 2]] none [] false).ops ∧
    TxOp.commit ∉
      (insertRows [⟨("a"), FieldType.integer, false⟩] ("t") 1
        (fun k => if k = 0 then none else some ("insert failed")) none
        [[Value.vint 1], [Value.vint 2]] none [] false).ops := by
  refine ⟨by decide, by decide, by decide⟩

/-- Claim C2, counterexample: the claim says the existing-column match is
case-insensitive, so a schema field "A" against an existing column "a"
should issue zero ADD COLUMN statements.  The code compares names exactly,
and issues one. -/
theorem evolveSchema_case_cex :
    ensureTable ("db") ⟨true, [⟨("a"), ("INT")⟩]⟩
        [⟨("A"), FieldType.integer, false⟩] ("t") ("") =
      ⟨[Stmt.createDatabase ("db"), Stmt.addColumn ("db.t") ("A") ("BIGINT")],
        1, Except.ok ()⟩ := by
  decide

/-- Claim C2 as amended: for every existing destination table,
`ensureTable` matches schema field names against the existing column names
by exact, case-sensitive string equality, and issues exactly one
ADD COLUMN statement for each field absent from that exact-name set and
zero statements for fields present in it; a field differing from an
existing column only in letter case is treated as absent and gets an
ADD COLUMN. -/
theorem ensureTable_evolve_exact_match (dbname table : String)
    (env : TableEnv) (schema : Schema)
    (htbl : table ≠ "")
    (hdb : trimSpace (parseDBTable dbname table).1 ≠ "")
    (hex : env.tableExists = true)
    (hok : ∀ f ∈ schema, f.repeated = false ∧ f.type ≠ FieldType.record) :
    ensureTable dbname env schema table "" =
      ⟨Stmt.createDatabase (parseDBTable dbname table).1 ::
        (schema.filter (fun f =>
            !((env.existingCols.map SRColumn.name).contains f.name))).map
          (fun f => Stmt.addColumn
            (qualify (parseDBTable dbname table).1 (parseDBTable dbname table).2)
            f.name (mapSRType f)),
        (schema.filter (fun f =>
            !((env.existingCols.map SRColumn.name).contains f.name))).length,
        Except.ok ()⟩ := by
  have hddl : ¬ (trimSpace ("") ≠ "") := by simp [trimSpace]
  have hexf : ¬ (env.tableExists = false) := by simp [hex]
  simp only [ensureTable, if_neg htbl, ensureDatabase, if_neg hdb, hddl,
    if_false, if_neg hexf, evolveSchema_ok _ _ _ hok]
  simp

/-- Claim C3, counterexample: the claim says a schema with a repeated or
nested field makes `ensureTable` fail before *any* DDL, database creation
included.  On an existing table with no columns and the schema
[a: integer, b: repeated string], the code executes the database-ensure
statement and the ADD COLUMN for `a` before failing on `b`. -/
theorem ensureTable_complex_cex :
    ensureTable ("db") ⟨true, []⟩
        [⟨("a"), FieldType.integer, false⟩, ⟨("b"), FieldType.string, true⟩]
        ("t") ("") =
      ⟨[Stmt.createDatabase ("db"), Stmt.addColumn ("db.t") ("a") ("BIGINT")],
        1, Except.error (unsupportedMsg ("b"))⟩ := by
  decide

/-- Claim C3 as amended: for every schema containing a repeated or record
field, `ensureTable` fails with the unsupported-type error naming the
first such field and never executes a CREATE TABLE or a caller-supplied
DDL; however the database-ensure statement always executes first, and in
the evolution path the ADD COLUMN statements for missing fields preceding
the offending field in schema order are executed before the failure (in
the create path no statement beyond the database-ensure is executed). -/
theorem ensureTable_complex_aborts (dbname table : String) (env : TableEnv)
    (pre : Schema) (f : FieldSchema) (post : Schema)
    (htbl : table ≠ "")
    (hdb : trimSpace (parseDBTable dbname table).1 ≠ "")
    (hpre : ∀ g ∈ pre, g.repeated = false ∧ g.type ≠ FieldType.record)
    (hf : f.repeated = true ∨ f.type = FieldType.record) :
    (env.tableExists = false →
      ensureTable dbname env (pre ++ f :: post) table "" =
        ⟨[Stmt.createDatabase (parseDBTable dbname table).1], pre.length,
          Except.error (unsupportedMsg f.name)⟩) ∧
    (env.tableExists = true →
      ensureTable dbname env (pre ++ f :: post) table "" =
        ⟨Stmt.createDatabase (parseDBTable dbname table).1 ::
          (pre.filter (fun g =>
              !((env.existingCols.map SRColumn.name).contains g.name))).map
            (fun g => Stmt.addColumn
              (qualify (parseDBTable dbname table).1
                (parseDBTable dbname table).2)
              g.name (mapSRType g)),
          (pre.filter (fun g =>
              !((env.existingCols.map SRColumn.name).contains g.name))).length,
          Except.error (unsupportedMsg f.name)⟩) := by
  have hddl : ¬ (trimSpace ("") ≠ "") := by simp [trimSpace]
  constructor
  · intro hex
    cases pre with
    | nil =>
      simp only [List.nil_append, ensureTable, if_neg htbl, ensureDatabase,
        if_neg hdb, hddl, if_false, hex, if_true]
      have hbc := buildCreateCols_err [] f post (by simp) hf
      rw [List.nil_append] at hbc
      simp only [hbc, List.length_nil]
    | cons p0 ps =>
      simp only [List.cons_append, ensureTable, if_neg htbl, ensureDatabase,
        if_neg hdb, hddl, if_false, hex, if_true]
      have hbc := buildCreateCols_err (p0 :: ps) f post hpre hf
      simp only [List.cons_append] at hbc
      simp only [hbc, List.length_cons]
  · intro hex
    have hexf : ¬ (env.tableExists = false) := by simp [hex]
    simp only [ensureTable, if_neg htbl, ensureDatabase, if_neg hdb, hddl,
      if_false, if_neg hexf, evolveSchema_err _ _ pre f post hpre hf]
    simp

/-- Claim C4: for every stream of N rows (no prefetched row) and every
batch size B ≥ 1, a successful load executes exactly ceil(N/B) multi-row
inserts — each of exactly B rows except a final partial batch of
N mod B rows when N mod B is non-zero — against the open transaction,
commits once at the end, and returns rowsLoaded = N; the column list of
every insert is the schema's field names in schema order. -/
theorem insertRows_batching (schema : Schema) (table : String) (B : Nat)
    (rows : List Row) (hB : 1 ≤ B) :
    insertRows schema table B (fun _ => none) none rows none [] false =
      ⟨TxOp.beginTx ::
        ((chunkAcc B [] rows).map
          (fun c => TxOp.exec (buildBatchInsert table (insertCols schema)
            schema c)) ++ [TxOp.commit]),
        Except.ok rows.length⟩ ∧
    (chunkAcc B [] rows).length = (rows.length + B - 1) / B ∧
    (∀ c ∈ (chunkAcc B [] rows).dropLast, c.length = B) ∧
    (∀ c, (chunkAcc B [] rows).getLast? = some c →
      c.length = if rows.length % B = 0 then B else rows.length % B) := by
  have hb0 : ([] : List Row).length < B := by simp; omega
  refine ⟨?_, ?_, chunkAcc_dropLast B rows [] hb0, ?_⟩
  · simp only [insertRows]
    simp only [Bool.false_eq_true, false_and, if_false]
    rw [insertLoop_ok]
    simp
  · rw [chunkAcc_length B rows [] hb0]
    simp
  · intro c hc
    have := chunkAcc_getLast B rows [] hb0 c hc
    simpa using this

/-- Claim C5: when the schema materializes only at the first fetch, the
peeked row is handed to the loader as the prefetched row and seeds the
first batch, so it is the first row in insertion order; a stream of N
total rows (the peeked row included) still loads exactly N rows, in the
original order. -/
theorem LoadFromBigQuery_peek_order (dbname table createDDL : String)
    (env : TableEnv) (bq : BQResult) (s : Schema) (r : Row)
    (rest : List Row) (B : Nat)
    (h0 : bq.initialSchema = [])
    (hs : bq.materializedSchema = s) (hsne : s ≠ [])
    (hrows : bq.rows = r :: rest) (herr : bq.readErr = none)
    (hr : 0 < r.length)
    (hens : (ensureTable dbname env s table createDDL).result = Except.ok ()) :
    LoadFromBigQuery dbname env bq table createDDL B (fun _ => none) none =
      ⟨(ensureTable dbname env s table createDDL).stmts,
        TxOp.beginTx ::
          ((chunkAcc B [r] rest).map
            (fun c => TxOp.exec (buildBatchInsert table (insertCols s) s c)) ++
            [TxOp.commit]),
        Except.ok (r :: rest).length⟩ ∧
    (chunkAcc B [r] rest).flatten = r :: rest ∧
    (∃ c0 cs, chunkAcc B [r] rest = c0 :: cs ∧ c0.head? = some r) := by
  refine ⟨?_, chunkAcc_flatten B rest [r], ?_⟩
  · have hins : insertRows s table B (fun _ => none) none rest none r true =
        ⟨TxOp.beginTx ::
          ((chunkAcc B [r] rest).map
            (fun c => TxOp.exec (buildBatchInsert table (insertCols s) s c)) ++
            [TxOp.commit]), Except.ok (r :: rest).length⟩ := by
      simp only [insertRows, eq_self_iff_true, true_and, if_pos hr]
      rw [insertLoop_ok]
      simp only [TxResult.mk.injEq, List.singleton_append]
      refine ⟨by trivial, ?_⟩
      congr 1
      simp only [List.length_cons, List.length_nil]
      omega
    simp only [LoadFromBigQuery, h0, hs, hrows, herr]
    simp only [ne_eq, not_true_eq_false, if_false, if_neg hsne]
    rw [hins]
    revert hens
    cases hres : (ensureTable dbname env s table createDDL).result with
    | error e => intro hens; exact absurd hens (by simp [hres])
    | ok u => intro _; simp
  · obtain ⟨c0, cs, heq, hh⟩ := chunkAcc_head B rest [r] (by simp)
    exact ⟨c0, cs, heq, by simpa using hh⟩

/-- Claim C6: value conversion before binding is total — it never fails
for any field type — and acts positionally: in a Timestamp column a
warehouse time value is kept as the native datetime value, and any value
that is not a time (unrepresentable in the mapped DATETIME column) is
bound as null instead of aborting the call; values of every other column
type pass through unchanged. -/
theorem convertValues_total_lossy (values : List Value) (schema : Schema)
    (i : Nat) (f : FieldSchema) (v : Value)
    (hf : schema[i]? = some f) (hv : values[i]? = some v) :
    (convertValues values schema).length = values.length ∧
    (convertValues values schema)[i]? = some (convertValue f v) ∧
    (f.type = FieldType.timestamp →
      (∀ t, v = Value.vtime t → convertValue f v = Value.vtime t) ∧
      ((∀ t, v ≠ Value.vtime t) → convertValue f v = Value.null)) ∧
    (f.type ≠ FieldType.timestamp → convertValue f v = v) := by
  refine ⟨convertValues_length values schema,
    convertValues_getElem values schema i f v hf hv, ?_, ?_⟩
  · intro hts
    constructor
    · intro t ht
      subst ht
      simp [convertValue, hts]
    · intro hnt
      cases v with
      | vtime t => exact absurd rfl (hnt t)
      | null => simp [convertValue, hts]
      | vint n => simp [convertValue, hts]
      | vstr s => simp [convertValue, hts]
      | vbool b => simp [convertValue, hts]
      | vother tag => simp [convertValue, hts]
  · intro hnts
    rcases f with ⟨n, ft, rep⟩
    cases ft <;> simp_all [convertValue]

/-- Claim C7, counterexample: the claim quantifies over every *non-empty*
explicit DDL string, but the code tests `strings.TrimSpace(createDDL)`:
on the non-empty string " " the provided DDL is not executed at all — the
normal CREATE-synthesis path runs and the type mapper is invoked. -/
theorem ensureTable_blank_ddl_cex :
    ensureTable ("db") ⟨false, []⟩ [⟨("a"), FieldType.integer, false⟩]
        ("t") (" ") =
      ⟨[Stmt.createDatabase ("db"),
        Stmt.createTable ("db.t") [(("a"), ("BIGINT"))] ("a") 8 1],
        1, Except.ok ()⟩ := by
  decide

/-- Claim C7 as amended: for every explicit DDL string that is non-blank
(non-empty after trimming whitespace), `ensureTable` executes that string
verbatim as the only table DDL and returns immediately afterwards — the
type mapper is invoked zero times, the schema is never consulted, and
neither the CREATE-synthesis path nor the evolution path runs, whatever
the destination state; a whitespace-only non-empty string is instead
treated as absent. -/
theorem ensureTable_explicit_ddl (dbname table createDDL : String)
    (env : TableEnv) (schema : Schema)
    (htbl : table ≠ "")
    (hdb : trimSpace (parseDBTable dbname table).1 ≠ "")
    (hddl : trimSpace createDDL ≠ "") :
    ensureTable dbname env schema table createDDL =
      ⟨[Stmt.createDatabase (parseDBTable dbname table).1,
        Stmt.providedDDL createDDL], 0, Except.ok ()⟩ := by
  simp only [ensureTable, if_neg htbl, ensureDatabase, if_neg hdb,
    if_pos hddl]
  simp

/-- Claim C8: for every non-empty schema free of repeated and record
fields, when the destination table is absent (and no explicit DDL is
given), `ensureTable` synthesizes a single CREATE statement listing every
schema field with its mapped type, whose duplicate/distribution key is the
first schema field's name, with a fixed bucket count of 8 and a single
data replica. -/
theorem ensureTable_create_shape (dbname table : String) (env : TableEnv)
    (f0 : FieldSchema) (rest : Schema)
    (htbl : table ≠ "")
    (hdb : trimSpace (parseDBTable dbname table).1 ≠ "")
    (hex : env.tableExists = false)
    (hok : ∀ f ∈ f0 :: rest, f.repeated = false ∧ f.type ≠ FieldType.record) :
    ensureTable dbname env (f0 :: rest) table "" =
      ⟨[Stmt.createDatabase (parseDBTable dbname table).1,
        Stmt.createTable
          (qualify (parseDBTable dbname table).1 (parseDBTable dbname table).2)
          ((f0 :: rest).map (fun f => (f.name, mapSRType f))) f0.name 8 1],
        (f0 :: rest).length, Except.ok ()⟩ := by
  have hddl : ¬ (trimSpace ("") ≠ "") := by simp [trimSpace]
  simp only [ensureTable, if_neg htbl, ensureDatabase, if_neg hdb, hddl,
    if_false, hex, if_true, buildCreateCols_ok _ hok]
  simp

/-- Claim C9: a query producing zero rows still loads successfully
whenever a schema is available from metadata — whether it was already
populated right after execution (the peek is then skipped) or it
materializes only after the peek: in both cases the prefetched-row slot
stays empty, the table is still reconciled from that schema, the
transaction performs no insert (it only opens and commits), and
rowsLoaded = 0; only when the schema is still empty after the peek does
the call fail with the schema-unavailable error. -/
theorem LoadFromBigQuery_zero_rows (dbname table createDDL : String)
    (env : TableEnv) (bq : BQResult) (B : Nat)
    (execRes : Nat → Option String)
    (hrows : bq.rows = []) (herr : bq.readErr = none) :
    (bq.initialSchema ≠ [] →
      (ensureTable dbname env bq.initialSchema table createDDL).result
          = Except.ok () →
      LoadFromBigQuery dbname env bq table createDDL B execRes none =
        ⟨(ensureTable dbname env bq.initialSchema table createDDL).stmts,
          [TxOp.beginTx, TxOp.commit], Except.ok 0⟩) ∧
    (bq.initialSchema = [] → bq.materializedSchema ≠ [] →
      (ensureTable dbname env bq.materializedSchema table createDDL).result
          = Except.ok () →
      LoadFromBigQuery dbname env bq table createDDL B execRes none =
        ⟨(ensureTable dbname env bq.materializedSchema table createDDL).stmts,
          [TxOp.beginTx, TxOp.commit], Except.ok 0⟩) ∧
    (bq.initialSchema = [] → bq.materializedSchema = [] →
      LoadFromBigQuery dbname env bq table createDDL B execRes none =
        ⟨[], [], Except.error ("empty BigQuery schema")⟩) := by
  refine ⟨?_, ?_, ?_⟩
  · intro h1 hens
    simp only [LoadFromBigQuery, hrows, herr, if_pos h1]
    simp only [if_neg h1]
    rw [insertRows_nil]
    revert hens
    cases hres : (ensureTable dbname env bq.initialSchema table
        createDDL).result with
    | error e => intro hens; exact absurd hens (by simp [hres])
    | ok u => intro _; simp
  · intro h0 hms hens
    simp only [LoadFromBigQuery, h0, hrows, herr]
    simp only [ne_eq, not_true_eq_false, if_false, if_neg hms]
    rw [insertRows_nil]
    revert hens
    cases hres : (ensureTable dbname env bq.materializedSchema table
        createDDL).result with
    | error e => intro hens; exact absurd hens (by simp [hres])
    | ok u => intro _; simp
  · intro h0 hms
    simp only [LoadFromBigQuery, h0, hrows, herr, hms]
    simp

/-- Claim C10: with no prefetched row handed over, the newer `insertRows`
is observationally identical to the old revision's `insertRows`: on every
stream, schema, table, batch size and failure pattern the two produce the
same transaction calls — the same insert statements with the same
arguments, in the same order — and the same returned total or error. -/
theorem insertRows_new_eq_old (schema : Schema) (table : String) (B : Nat)
    (execRes : Nat → Option String) (commitRes : Option String)
    (rows : List Row) (readErr : Option String) (prefetched : Row) :
    insertRows schema table B execRes commitRes rows readErr prefetched false =
      insertRowsOld schema table B execRes commitRes rows readErr := by
  simp only [insertRows, insertRowsOld, Bool.false_eq_true, false_and,
    if_false]
  exact insertLoop_eq_old schema table (insertCols schema) B execRes
    commitRes readErr rows [] 0 0 [TxOp.beginTx]

/-! ### Witnesses: the hypotheses of the theorems above are satisfiable -/

/-- Witness for the amended C2 theorem: a three-field schema against an
existing table that already has columns `a` and `b` gets exactly one
ADD COLUMN, for the missing `c`. -/
theorem ensureTable_evolve_exact_match_witness :
    (("db2.t" : String) ≠ "") ∧
    trimSpace (parseDBTable ("dflt") ("db2.t")).1 ≠ "" ∧
    (TableEnv.mk true [⟨("a"), ("INT")⟩, ⟨("b"), ("VARCHAR")⟩]).tableExists
      = true ∧
    (∀ f ∈ ([⟨("a"), FieldType.integer, false⟩,
        ⟨("c"), FieldType.string, false⟩,
        ⟨("b"), FieldType.boolean, false⟩] : Schema),
      f.repeated = false ∧ f.type ≠ FieldType.record) ∧
    ensureTable ("dflt") (TableEnv.mk true [⟨("a"), ("INT")⟩, ⟨("b"), ("VARCHAR")⟩])
        [⟨("a"), FieldType.integer, false⟩, ⟨("c"), FieldType.string, false⟩,
          ⟨("b"), FieldType.boolean, false⟩] ("db2.t") ("") =
      ⟨[Stmt.createDatabase ("db2"), Stmt.addColumn ("db2.t") ("c") ("VARCHAR(1024)")],
        1, Except.ok ()⟩ :=
  ⟨by decide, by decide, by decide, by decide,
    (ensureTable_evolve_exact_match ("dflt") ("db2.t")
      (TableEnv.mk true [⟨("a"), ("INT")⟩, ⟨("b"), ("VARCHAR")⟩])
      [⟨("a"), FieldType.integer, false⟩, ⟨("c"), FieldType.string, false⟩,
        ⟨("b"), FieldType.boolean, false⟩]
      (by decide) (by decide) (by decide) (by decide)).trans (by decide)⟩

/-- Witness for the amended C3 theorem: schema `[a: integer, b: repeated
string]`, both for an absent and for an existing destination table. -/
theorem ensureTable_complex_aborts_witness :
    (("t" : String) ≠ "") ∧
    trimSpace (parseDBTable ("db") ("t")).1 ≠ "" ∧
    (∀ g ∈ ([⟨("a"), FieldType.integer, false⟩] : Schema),
      g.repeated = false ∧ g.type ≠ FieldType.record) ∧
    ((⟨("b"), FieldType.string, true⟩ : FieldSchema).repeated = true ∨
      (⟨("b"), FieldType.string, true⟩ : FieldSchema).type = FieldType.record) ∧
    (((TableEnv.mk true []).tableExists = false →
      ensureTable ("db") (TableEnv.mk true [])
          ([⟨("a"), FieldType.integer, false⟩] ++
            (⟨("b"), FieldType.string, true⟩ : FieldSchema) :: []) ("t") ("") =
        ⟨[Stmt.createDatabase (parseDBTable ("db") ("t")).1],
          ([⟨("a"), FieldType.integer, false⟩] : Schema).length,
          Except.error (unsupportedMsg (FieldSchema.name
            ⟨("b"), FieldType.string, true⟩))⟩) ∧
    ((TableEnv.mk true []).tableExists = true →
      ensureTable ("db") (TableEnv.mk true [])
          ([⟨("a"), FieldType.integer, false⟩] ++
            (⟨("b"), FieldType.string, true⟩ : FieldSchema) :: []) ("t") ("") =
        ⟨Stmt.createDatabase (parseDBTable ("db") ("t")).1 ::
          (([⟨("a"), FieldType.integer, false⟩] : Schema).filter (fun g =>
              !((((TableEnv.mk true []).existingCols).map
                SRColumn.name).contains g.name))).map
            (fun g => Stmt.addColumn
              (qualify (parseDBTable ("db") ("t")).1
                (parseDBTable ("db") ("t")).2) g.name (mapSRType g)),
          (([⟨("a"), FieldType.integer, false⟩] : Schema).filter (fun g =>
              !((((TableEnv.mk true []).existingCols).map
                SRColumn.name).contains g.name))).length,
          Except.error (unsupportedMsg (FieldSchema.name
            ⟨("b"), FieldType.string, true⟩))⟩)) :=
  ⟨by decide, by decide, by decide, by decide,
    ensureTable_complex_aborts ("db") ("t") (TableEnv.mk true [])
      [⟨("a"), FieldType.integer, false⟩] ⟨("b"), FieldType.string, true⟩ []
      (by decide) (by decide) (by decide) (by decide)⟩

/-- Witness for C4: five rows at batch size 2 — three inserts of sizes
2, 2, 1 and a total of 5. -/
theorem insertRows_batching_witness :
    1 ≤ 2 ∧
    (insertRows [⟨("a"), FieldType.integer, false⟩] ("t") 2 (fun _ => none)
        none [[Value.vint 1], [Value.vint 2], [Value.vint 3], [Value.vint 4],
          [Value.vint 5]] none [] false =
      ⟨TxOp.beginTx ::
        ((chunkAcc 2 [] [[Value.vint 1], [Value.vint 2], [Value.vint 3],
            [Value.vint 4], [Value.vint 5]]).map
          (fun c => TxOp.exec (buildBatchInsert ("t")
            (insertCols [⟨("a"), FieldType.integer, false⟩])
            [⟨("a"), FieldType.integer, false⟩] c)) ++ [TxOp.commit]),
        Except.ok ([[Value.vint 1], [Value.vint 2], [Value.vint 3],
          [Value.vint 4], [Value.vint 5]] : List Row).length⟩ ∧
    (chunkAcc 2 [] [[Value.vint 1], [Value.vint 2], [Value.vint 3],
        [Value.vint 4], [Value.vint 5]]).length =
      (([[Value.vint 1], [Value.vint 2], [Value.vint 3], [Value.vint 4],
        [Value.vint 5]] : List Row).length + 2 - 1) / 2 ∧
    (∀ c ∈ (chunkAcc 2 [] [[Value.vint 1], [Value.vint 2], [Value.vint 3],
        [Value.vint 4], [Value.vint 5]]).dropLast, c.length = 2) ∧
    (∀ c, (chunkAcc 2 [] [[Value.vint 1], [Value.vint 2], [Value.vint 3],
        [Value.vint 4], [Value.vint 5]]).getLast? = some c →
      c.length = if ([[Value.vint 1], [Value.vint 2], [Value.vint 3],
          [Value.vint 4], [Value.vint 5]] : List Row).length % 2 = 0 then 2
        else ([[Value.vint 1], [Value.vint 2], [Value.vint 3], [Value.vint 4],
          [Value.vint 5]] : List Row).length % 2)) :=
  ⟨by decide,
    insertRows_batching [⟨("a"), FieldType.integer, false⟩] ("t") 2
      [[Value.vint 1], [Value.vint 2], [Value.vint 3], [Value.vint 4],
        [Value.vint 5]] (by decide)⟩

/-- Witness for C5: a deferred schema over three rows, the first of which
is peeked; with batch size 2 the peeked row leads the first insert and all
three rows load. -/
theorem LoadFromBigQuery_peek_order_witness :
    (BQResult.mk [] [⟨("a"), FieldType.integer, false⟩]
        [[Value.vint 9], [Value.vint 1], [Value.vint 2]] none).initialSchema
      = [] ∧
    (BQResult.mk [] [⟨("a"), FieldType.integer, false⟩]
        [[Value.vint 9], [Value.vint 1], [Value.vint 2]] none).materializedSchema
      = [⟨("a"), FieldType.integer, false⟩] ∧
    ([⟨("a"), FieldType.integer, false⟩] : Schema) ≠ [] ∧
    (BQResult.mk [] [⟨("a"), FieldType.integer, false⟩]
        [[Value.vint 9], [Value.vint 1], [Value.vint 2]] none).rows
      = [Value.vint 9] :: [[Value.vint 1], [Value.vint 2]] ∧
    (BQResult.mk [] [⟨("a"), FieldType.integer, false⟩]
        [[Value.vint 9], [Value.vint 1], [Value.vint 2]] none).readErr = none ∧
    0 < ([Value.vint 9] : Row).length ∧
    (ensureTable ("db") (TableEnv.mk false [])
        [⟨("a"), FieldType.integer, false⟩] ("t") ("")).result = Except.ok () ∧
    (LoadFromBigQuery ("db") (TableEnv.mk false [])
        (BQResult.mk [] [⟨("a"), FieldType.integer, false⟩]
          [[Value.vint 9], [Value.vint 1], [Value.vint 2]] none)
        ("t") ("") 2 (fun _ => none) none =
      ⟨(ensureTable ("db") (TableEnv.mk false [])
          [⟨("a"), FieldType.integer, false⟩] ("t") ("")).stmts,
        TxOp.beginTx ::
          ((chunkAcc 2 [[Value.vint 9]] [[Value.vint 1], [Value.vint 2]]).map
            (fun c => TxOp.exec (buildBatchInsert ("t")
              (insertCols [⟨("a"), FieldType.integer, false⟩])
              [⟨("a"), FieldType.integer, false⟩] c)) ++ [TxOp.commit]),
        Except.ok ([Value.vint 9] :: [[Value.vint 1], [Value.vint 2]]
          : List Row).length⟩ ∧
    (chunkAcc 2 [[Value.vint 9]] [[Value.vint 1], [Value.vint 2]]).flatten =
      [Value.vint 9] :: [[Value.vint 1], [Value.vint 2]] ∧
    (∃ c0 cs, chunkAcc 2 [[Value.vint 9]] [[Value.vint 1], [Value.vint 2]] =
      c0 :: cs ∧ c0.head? = some [Value.vint 9])) :=
  ⟨by decide, by decide, by decide, by decide, by decide, by decide, by decide,
    LoadFromBigQuery_peek_order ("db") ("t") ("") (TableEnv.mk false [])
      (BQResult.mk [] [⟨("a"), FieldType.integer, false⟩]
        [[Value.vint 9], [Value.vint 1], [Value.vint 2]] none)
      [⟨("a"), FieldType.integer, false⟩] [Value.vint 9]
      [[Value.vint 1], [Value.vint 2]] 2
      (by decide) (by decide) (by decide) (by decide) (by decide) (by decide)
      (by decide)⟩

/-- Witness for C6: a string value in a Timestamp column is converted to
null rather than failing. -/
theorem convertValues_total_lossy_witness :
    (([⟨("ts"), FieldType.timestamp, false⟩] : Schema)[0]? =
      some ⟨("ts"), FieldType.timestamp, false⟩) ∧
    (([Value.vstr ("x")] : List Value)[0]? = some (Value.vstr ("x"))) ∧
    ((convertValues [Value.vstr ("x")]
        [⟨("ts"), FieldType.timestamp, false⟩]).length =
      ([Value.vstr ("x")] : List Value).length ∧
    (convertValues [Value.vstr ("x")]
        [⟨("ts"), FieldType.timestamp, false⟩])[0]? =
      some (convertValue ⟨("ts"), FieldType.timestamp, false⟩
        (Value.vstr ("x"))) ∧
    ((⟨("ts"), FieldType.timestamp, false⟩ : FieldSchema).type =
        FieldType.timestamp →
      (∀ t, Value.vstr ("x") = Value.vtime t →
        convertValue ⟨("ts"), FieldType.timestamp, false⟩ (Value.vstr ("x")) =
          Value.vtime t) ∧
      ((∀ t, Value.vstr ("x") ≠ Value.vtime t) →
        convertValue ⟨("ts"), FieldType.timestamp, false⟩ (Value.vstr ("x")) =
          Value.null)) ∧
    ((⟨("ts"), FieldType.timestamp, false⟩ : FieldSchema).type ≠
        FieldType.timestamp →
      convertValue ⟨("ts"), FieldType.timestamp, false⟩ (Value.vstr ("x")) =
        Value.vstr ("x"))) :=
  ⟨by decide, by decide,
    convertValues_total_lossy [Value.vstr ("x")]
      [⟨("ts"), FieldType.timestamp, false⟩] 0
      ⟨("ts"), FieldType.timestamp, false⟩ (Value.vstr ("x"))
      (by decide) (by decide)⟩

/-- Witness for the amended C7 theorem: a non-blank caller DDL string is
executed verbatim, with zero mapper invocations, for any schema. -/
theorem ensureTable_explicit_ddl_witness :
    (("t" : String) ≠ "") ∧
    trimSpace (parseDBTable ("db") ("t")).1 ≠ "" ∧
    trimSpace ("CREATE TABLE x (a INT)") ≠ "" ∧
    ensureTable ("db") (TableEnv.mk true [])
        [⟨("a"), FieldType.integer, false⟩] ("t") ("CREATE TABLE x (a INT)") =
      ⟨[Stmt.createDatabase (parseDBTable ("db") ("t")).1,
        Stmt.providedDDL ("CREATE TABLE x (a INT)")], 0, Except.ok ()⟩ :=
  ⟨by decide, by decide, by decide,
    ensureTable_explicit_ddl ("db") ("t") ("CREATE TABLE x (a INT)")
      (TableEnv.mk true []) [⟨("a"), FieldType.integer, false⟩]
      (by decide) (by decide) (by decide)⟩

/-- Witness for C8: a two-field schema against an absent table creates a
table keyed and distributed on the first field with 8 buckets and one
replica. -/
theorem ensureTable_create_shape_witness :
    (("t" : String) ≠ "") ∧
    trimSpace (parseDBTable ("db") ("t")).1 ≠ "" ∧
    (TableEnv.mk false []).tableExists = false ∧
    (∀ f ∈ ((⟨("id"), FieldType.integer, false⟩ : FieldSchema) ::
        [⟨("ts"), FieldType.timestamp, false⟩]),
      f.repeated = false ∧ f.type ≠ FieldType.record) ∧
    ensureTable ("db") (TableEnv.mk false [])
        ((⟨("id"), FieldType.integer, false⟩ : FieldSchema) ::
          [⟨("ts"), FieldType.timestamp, false⟩]) ("t") ("") =
      ⟨[Stmt.createDatabase ("db"),
        Stmt.createTable ("db.t")
          [(("id"), ("BIGINT")), (("ts"), ("DATETIME"))] ("id") 8 1],
        2, Except.ok ()⟩ :=
  ⟨by decide, by decide, by decide, by decide,
    (ensureTable_create_shape ("db") ("t") (TableEnv.mk false [])
      ⟨("id"), FieldType.integer, false⟩ [⟨("ts"), FieldType.timestamp, false⟩]
      (by decide) (by decide) (by decide) (by decide)).trans (by decide)⟩

/-- Witness for C9 at a zero-row result whose schema is already populated
right after execution (the before-peek case): the load reconciles the
table, performs no insert and returns 0; the after-peek and the
still-empty conjuncts hold vacuously at this instance. -/
theorem LoadFromBigQuery_zero_rows_witness :
    (BQResult.mk [⟨("a"), FieldType.integer, false⟩] [] [] none).rows = [] ∧
    (BQResult.mk [⟨("a"), FieldType.integer, false⟩] [] [] none).readErr
      = none ∧
    (((BQResult.mk [⟨("a"), FieldType.integer, false⟩] [] []
        none).initialSchema ≠ [] →
      (ensureTable ("db") (TableEnv.mk false [])
          (BQResult.mk [⟨("a"), FieldType.integer, false⟩] [] []
            none).initialSchema ("t") ("")).result = Except.ok () →
      LoadFromBigQuery ("db") (TableEnv.mk false [])
          (BQResult.mk [⟨("a"), FieldType.integer, false⟩] [] [] none)
          ("t") ("") 1000 (fun _ => none) none =
        ⟨(ensureTable ("db") (TableEnv.mk false [])
            (BQResult.mk [⟨("a"), FieldType.integer, false⟩] [] []
              none).initialSchema ("t") ("")).stmts,
          [TxOp.beginTx, TxOp.commit], Except.ok 0⟩) ∧
    ((BQResult.mk [⟨("a"), FieldType.integer, false⟩] [] []
        none).initialSchema = [] →
      (BQResult.mk [⟨("a"), FieldType.integer, false⟩] [] []
        none).materializedSchema ≠ [] →
      (ensureTable ("db") (TableEnv.mk false [])
          (BQResult.mk [⟨("a"), FieldType.integer, false⟩] [] []
            none).materializedSchema ("t") ("")).result = Except.ok () →
      LoadFromBigQuery ("db") (TableEnv.mk false [])
          (BQResult.mk [⟨("a"), FieldType.integer, false⟩] [] [] none)
          ("t") ("") 1000 (fun _ => none) none =
        ⟨(ensureTable ("db") (TableEnv.mk false [])
            (BQResult.mk [⟨("a"), FieldType.integer, false⟩] [] []
              none).materializedSchema ("t") ("")).stmts,
          [TxOp.beginTx, TxOp.commit], Except.ok 0⟩) ∧
    ((BQResult.mk [⟨("a"), FieldType.integer, false⟩] [] []
        none).initialSchema = [] →
      (BQResult.mk [⟨("a"), FieldType.integer, false⟩] [] []
        none).materializedSchema = [] →
      LoadFromBigQuery ("db") (TableEnv.mk false [])
          (BQResult.mk [⟨("a"), FieldType.integer, false⟩] [] [] none)
          ("t") ("") 1000 (fun _ => none) none =
        ⟨[], [], Except.error ("empty BigQuery schema")⟩)) :=
  ⟨by decide, by decide,
    LoadFromBigQuery_zero_rows ("db") ("t") ("") (TableEnv.mk false [])
      (BQResult.mk [⟨("a"), FieldType.integer, false⟩] [] [] none) 1000
      (fun _ => none) (by decide) (by decide)⟩

end BQExporter
